import Mathlib

/-!
Shallow embedding of the JWT validation core of the
`Vibrant-auth-middleware-go` repository (package `jwtauth`), together with
theorems settling the specification claims about it.

The embedding follows the Go source files:
  * `jwtauth/config.go`   — `Config`, `NewConfig`, the functional options;
  * `jwtauth/validator.go` — `parseAndValidateJWT`, `validateAlgorithm`,
    `validateClaims`, `validateRequiredClaims`, `mapJWTClaimsToClaims`,
    `joinStrings`;
  * the errors file       — `ErrorCode`, `ValidationError`;
  * the extraction file   — `extractToken`, `extractTokenFromHeader`,
    `extractTokenFromCookie`;
  * the middleware file   — `buildErrorResponse`, `getErrorCode`;
  * the logger file       — `redactToken`, `SecurityEvent.LogValue`.

The external cryptographic library (`golang-jwt/jwt/v5`) is out of scope
for the repository (it is a vetted collaborator); it is modelled abstractly
as the spec describes its role: decode the header, call the key-lookup
callback (`validateAlgorithm`), and verify the signature with the returned
key.  Signature verification itself is an abstract oracle attached to each
token.  Go `time.Time` instants and `time.Duration` values are modelled as
integers (one unit = one tick of the clock); `time.Now()` is passed as an
explicit `now` parameter.
-/

namespace Jwtauth

/-- Error codes of the closed error taxonomy (the `ErrorCode` constants). -/
inductive ErrorCode where
  | EXPIRED
  | INVALID_SIGNATURE
  | MISSING_TOKEN
  | MALFORMED
  | ALGORITHM_MISMATCH
  | NONE_ALGORITHM
  | CONFIG_ERROR
  | UNSUPPORTED_ALGORITHM
  | MALFORMED_ALGORITHM_HEADER
deriving DecidableEq, Repr

/-- The string constant each `ErrorCode` is declared as in the Go source. -/
def ErrorCode.toCodeString : ErrorCode → String
  | .EXPIRED => "EXPIRED"
  | .INVALID_SIGNATURE => "INVALID_SIGNATURE"
  | .MISSING_TOKEN => "MISSING_TOKEN"
  | .MALFORMED => "MALFORMED"
  | .ALGORITHM_MISMATCH => "ALGORITHM_MISMATCH"
  | .NONE_ALGORITHM => "NONE_ALGORITHM"
  | .CONFIG_ERROR => "CONFIG_ERROR"
  | .UNSUPPORTED_ALGORITHM => "UNSUPPORTED_ALGORITHM"
  | .MALFORMED_ALGORITHM_HEADER => "MALFORMED_ALGORITHM_HEADER"

/-- `ValidationError` from the errors file: a code and a human-readable
message.  The wrapped `Internal` cause is irrelevant to every claim and
is omitted. -/
structure ValidationError where
  code : ErrorCode
  message : String
deriving DecidableEq, Repr

/-- A signing method, identified by the string its Go `Alg()` method
returns (`jwt.SigningMethodHS256.Alg() = "HS256"`, etc.). -/
structure SigningMethod where
  alg : String
deriving DecidableEq, Repr

def SigningMethodHS256 : SigningMethod := ⟨"HS256"⟩

def SigningMethodRS256 : SigningMethod := ⟨"RS256"⟩

/-- A signing key (`interface{}` in Go): HMAC secret bytes or an RSA
public key (opaque, identified by a tag). -/
inductive SigningKey where
  | hmacSecret (bytes : List Nat)
  | rsaPublicKey (key : Nat)
deriving DecidableEq, Repr

/-- `algorithmValidator` from `config.go`: signing key and method for one
algorithm.  Both fields are Go interface values and may be `nil`, hence
`Option`. -/
structure algorithmValidator where
  signingKey : Option SigningKey
  signingMethod : Option SigningMethod
deriving DecidableEq, Repr

/-- `Config` from `config.go`.  The Go `map[string]algorithmValidator` is
modelled as an association list without duplicate keys (updates overwrite
in place).  The logger field carries no claim-relevant data and is
omitted. -/
structure Config where
  validators : List (String × algorithmValidator)
  clockSkewLeeway : Int
  cookieName : String
  requiredClaims : List String
  contextKeyPrefix : String
deriving DecidableEq, Repr

/-- Map update, last write wins (Go `m[k] = v`). -/
def insertValidator (m : List (String × algorithmValidator)) (k : String)
    (v : algorithmValidator) : List (String × algorithmValidator) :=
  match m with
  | [] => [(k, v)]
  | (k', v') :: rest =>
      if k' = k then (k, v) :: rest else (k', v') :: insertValidator rest k v

/-- `Config.getValidator`: map lookup. -/
def Config.getValidator (c : Config) (alg : String) : Option algorithmValidator :=
  c.validators.lookup alg

/-- `Config.AvailableAlgorithms`: the configured algorithm names, sorted
with `sort.Strings`. -/
def Config.AvailableAlgorithms (c : Config) : List String :=
  (c.validators.map Prod.fst).insertionSort (· ≤ ·)

/-- `Config.ClockSkewLeeway`. -/
def Config.ClockSkewLeeway (c : Config) : Int := c.clockSkewLeeway

/-- `Config.CookieName`. -/
def Config.CookieName (c : Config) : String := c.cookieName

/-- `Config.RequiredClaims`. -/
def Config.RequiredClaims (c : Config) : List String := c.requiredClaims

/-- The functional options accepted by `NewConfig` (`WithLogger` carries
no claim-relevant data and is modelled as the identity option
`withLogger`). -/
inductive ConfigOption where
  | withHS256 (secret : List Nat)
  | withRS256 (publicKey : Option Nat)
  | withClockSkew (skew : Int)
  | withCookie (cookieName : String)
  | withLogger
  | withRequiredClaims (claims : List String)
deriving DecidableEq, Repr

/-- Applying one option to the config under construction; `Except String`
is the Go `error` returned by the option closure. -/
def applyOption (c : Config) : ConfigOption → Except String Config
  | .withHS256 secret =>
      if secret.length < 32 then
        .error ("HS256 secret must be at least 32 bytes (256 bits), got "
          ++ toString secret.length ++ " bytes")
      else
        .ok { c with validators := (insertValidator c.validators "HS256"
                (algorithmValidator.mk (some (.hmacSecret secret)) (some SigningMethodHS256))) }
  | .withRS256 publicKey =>
      match publicKey with
      | none => .error "RS256 public key cannot be nil"
      | some k =>
          .ok { c with validators := (insertValidator c.validators "RS256"
                  (algorithmValidator.mk (some (.rsaPublicKey k)) (some SigningMethodRS256))) }
  | .withClockSkew skew =>
      if skew < 0 then
        .error ("clock skew must be non-negative, got " ++ toString skew)
      else
        .ok { c with clockSkewLeeway := skew }
  | .withCookie cookieName => .ok { c with cookieName := cookieName }
  | .withLogger => .ok c
  | .withRequiredClaims claims =>
      .ok { c with requiredClaims := c.requiredClaims ++ claims }

/-- The option-application loop of `NewConfig`, short-circuiting on the
first failing option. -/
def applyOptions (c : Config) : List ConfigOption → Except String Config
  | [] => .ok c
  | opt :: rest =>
      match applyOption c opt with
      | .error e => .error e
      | .ok c' => applyOptions c' rest

/-- The per-validator nil checks at the end of `NewConfig`: first entry
with a nil signing key or nil signing method, if any. -/
def findBadValidator : List (String × algorithmValidator) → Option ValidationError
  | [] => none
  | (alg, v) :: rest =>
      if v.signingKey = none then
        some ⟨.CONFIG_ERROR, "signing key for " ++ alg ++ " cannot be nil"⟩
      else if v.signingMethod = none then
        some ⟨.CONFIG_ERROR, "signing method for " ++ alg ++ " cannot be nil"⟩
      else findBadValidator rest

/-- The zero value `NewConfig` starts from: empty validator map, 60
second default clock skew, `"jwtauth"` context key prefix. -/
def defaultConfig : Config :=
  { validators := []
    clockSkewLeeway := 60
    cookieName := ""
    requiredClaims := []
    contextKeyPrefix := "jwtauth" }

/-- `NewConfig` from `config.go`: apply the options, then run the
construction-time validation (at least one validator; no `none` variant
key; no nil key or method). -/
def NewConfig (opts : List ConfigOption) : Except ValidationError Config :=
  match applyOptions defaultConfig opts with
  | .error e =>
      .error ⟨.CONFIG_ERROR, "configuration error: " ++ e⟩
  | .ok cfg =>
      if cfg.validators.isEmpty then
        .error ⟨.CONFIG_ERROR,
          "at least one algorithm must be configured (use WithHS256 or WithRS256)"⟩
      else if cfg.validators.any
          (fun p => p.1 = "none" || p.1 = "None" || p.1 = "NONE") then
        .error ⟨.CONFIG_ERROR, "none algorithm is prohibited"⟩
      else
        match findBadValidator cfg.validators with
        | some e => .error e
        | none => .ok cfg

/-- The `alg` field of a decoded token header (`token.Header["alg"]` is a
Go `interface{}`): absent, present but not a string, or a string. -/
inductive HeaderAlg where
  | absent
  | nonString
  | algStr (s : String)
deriving DecidableEq, Repr

/-- A JSON value appearing in a token payload, at the granularity the
validator inspects: strings, numeric dates (seconds), or anything else. -/
inductive JSONValue where
  | str (s : String)
  | num (n : Int)
  | other
deriving DecidableEq, Repr

/-- A structurally decoded token, as the external JWT library hands it to
the code of the repository: the header `alg` field, the `Alg()` name of the
library-resolved signing method (`token.Method.Alg()`), the payload map
(`jwt.MapClaims`), and an abstract signature-verification oracle standing
for the cryptographic check, by the library, of the token signature under a
candidate key. -/
structure RawToken where
  headerAlg : HeaderAlg
  methodAlg : String
  payload : List (String × JSONValue)
  sigOK : Option SigningKey → Bool

/-- `Alg()` on a possibly-nil signing method interface value.  The `none`
branch is unreachable for configs built by `NewConfig` (Go would panic on
a nil interface). -/
def methodAlgName : Option SigningMethod → String
  | some m => m.alg
  | none => ""

/-- `joinStrings` from `validator.go`: comma-space join. -/
def joinStrings : List String → String
  | [] => ""
  | s :: rest => rest.foldl (fun acc x => acc ++ ", " ++ x) s

/-- `validateAlgorithm` from `validator.go`: reject missing or non-string
`alg`; reject the three `none` spellings before any lookup; look the name
up case-sensitively; on a hit, re-check that the library-resolved signing
method matches the configured one (algorithm-confusion guard); return the
configured signing key. -/
def validateAlgorithm (token : RawToken) (cfg : Config) :
    Except ValidationError (Option SigningKey) :=
  match token.headerAlg with
  | .nonString =>
      .error ⟨.MALFORMED_ALGORITHM_HEADER, "algorithm header must be a string"⟩
  | .absent =>
      .error ⟨.MALFORMED, "missing algorithm in token header"⟩
  | .algStr alg =>
      if alg = "none" ∨ alg = "None" ∨ alg = "NONE" then
        .error ⟨.NONE_ALGORITHM, "none algorithm not allowed"⟩
      else
        match cfg.getValidator alg with
        | none =>
            .error ⟨.UNSUPPORTED_ALGORITHM,
              "algorithm " ++ alg ++ " not supported (available: "
                ++ joinStrings cfg.AvailableAlgorithms ++ ")"⟩
        | some validator =>
            if token.methodAlg ≠ methodAlgName validator.signingMethod then
              .error ⟨.INVALID_SIGNATURE,
                "algorithm confusion detected: token method " ++ token.methodAlg
                  ++ " does not match expected method "
                  ++ methodAlgName validator.signingMethod⟩
            else
              .ok validator.signingKey

/-- Outcome of the `jwt.Parse` call of the external library: the key-lookup
callback failed (the library wraps the error of the callback, and the Go code
unwraps it back with `errors.As`), or the signature did not verify, or
success. -/
inductive LibParseError where
  | keyfuncError (e : ValidationError)
  | signatureInvalid

/-- Modelled, per the spec, from the role it assigns the external JWT
library: `jwt.Parse` decodes the token, calls the key-lookup callback
(here `validateAlgorithm`), and verifies the signature with the key the
callback returned. -/
def libParse (token : RawToken) (cfg : Config) :
    Except LibParseError (Option SigningKey) :=
  match validateAlgorithm token cfg with
  | .error e => .error (.keyfuncError e)
  | .ok key => if token.sigOK key then .ok key else .error .signatureInvalid

/-- `Claims` from `claims.go`.  Go zero-valued `time.Time` fields (claim
absent) are modelled as `none`; string fields default to `""` as in Go. -/
structure Claims where
  subject : String
  issuer : String
  audience : String
  expiresAt : Option Int
  notBefore : Option Int
  issuedAt : Option Int
  jwtID : String
  custom : List (String × JSONValue)
deriving DecidableEq, Repr

/-- Payload lookup as a string (`mapClaims["sub"].(string)`). -/
def lookupStr (payload : List (String × JSONValue)) (key : String) : Option String :=
  match payload.lookup key with
  | some (.str s) => some s
  | _ => none

/-- Payload lookup as a numeric date (`mapClaims.GetExpirationTime` and
friends succeed exactly on numeric values). -/
def lookupNum (payload : List (String × JSONValue)) (key : String) : Option Int :=
  match payload.lookup key with
  | some (.num n) => some n
  | _ => none

/-- `mapJWTClaimsToClaims` from `validator.go`: copy the standard string
claims when present with string type, the time claims when present with
numeric type, and every non-standard key into the custom map.  (The Go
function returns an error value but no path produces one.) -/
def mapJWTClaimsToClaims (payload : List (String × JSONValue)) : Claims :=
  { subject := (lookupStr payload "sub").getD ""
    issuer := (lookupStr payload "iss").getD ""
    audience := (lookupStr payload "aud").getD ""
    expiresAt := lookupNum payload "exp"
    notBefore := lookupNum payload "nbf"
    issuedAt := lookupNum payload "iat"
    jwtID := (lookupStr payload "jti").getD ""
    custom := (payload.filter (fun p =>
      !(["sub", "iss", "aud", "exp", "nbf", "iat", "jti"].contains p.1))) }

/-- `validateClaims` from `validator.go`: expiry check
(`now.After(exp.Add(skew))`, i.e. `now > exp + skew`) and then not-before
check (`now.Before(nbf.Add(-skew))`, i.e. `now < nbf - skew`), both only
when the claim is present, both reported under `EXPIRED`. -/
def validateClaims (claims : Claims) (cfg : Config) (now : Int) :
    Except ValidationError Unit :=
  match claims.expiresAt with
  | some exp =>
      if now > exp + cfg.ClockSkewLeeway then
        .error ⟨.EXPIRED, "token expired at " ++ toString exp⟩
      else
        match claims.notBefore with
        | some nbf =>
            if now < nbf - cfg.ClockSkewLeeway then
              .error ⟨.EXPIRED, "token not valid until " ++ toString nbf⟩
            else .ok ()
        | none => .ok ()
  | none =>
      match claims.notBefore with
      | some nbf =>
          if now < nbf - cfg.ClockSkewLeeway then
            .error ⟨.EXPIRED, "token not valid until " ++ toString nbf⟩
          else .ok ()
      | none => .ok ()

/-- `validateRequiredClaims` from `validator.go`: every configured
required claim name must be a key of the payload. -/
def validateRequiredClaims (payload : List (String × JSONValue)) (cfg : Config) :
    Except ValidationError Unit :=
  match cfg.RequiredClaims.find? (fun name => (payload.lookup name).isNone) with
  | some name => .error ⟨.MALFORMED, "required claim missing: " ++ name⟩
  | none => .ok ()

/-- `parseAndValidateJWT` from `validator.go`: run the library parse with
`validateAlgorithm` as the key-lookup callback; a callback error is
unwrapped and returned as is; a signature failure maps to
`INVALID_SIGNATURE`; on success, map the payload to `Claims`, validate
the time claims with clock skew, then the required claims. -/
def parseAndValidateJWT (token : RawToken) (cfg : Config) (now : Int) :
    Except ValidationError Claims :=
  match libParse token cfg with
  | .error (.keyfuncError e) => .error e
  | .error .signatureInvalid => .error ⟨.INVALID_SIGNATURE, "invalid signature"⟩
  | .ok _ =>
      let claims := mapJWTClaimsToClaims token.payload
      match validateClaims claims cfg now with
      | .error e => .error e
      | .ok _ =>
          match validateRequiredClaims token.payload cfg with
          | .error e => .error e
          | .ok _ => .ok claims

/-- The parts of an HTTP request the extractor consults: the
`Authorization` header (`Header.Get` returns `""` when absent) and the
cookie list (`r.Cookie(name)` returns the first cookie with that name or
an error). -/
structure Request where
  authorizationHeader : String
  cookies : List (String × String)

/-- Split a character list at the first space, when one occurs. -/
def breakAtSpace : List Char → Option (List Char × List Char)
  | [] => none
  | c :: cs =>
      if c = ' ' then some ([], cs)
      else
        match breakAtSpace cs with
        | none => none
        | some (l, r) => some (c :: l, r)

/-- Go `strings.SplitN(s, " ", 2)`: at most two pieces, split at the
first space. -/
def splitN2Space (s : String) : List String :=
  match breakAtSpace s.data with
  | none => [s]
  | some (l, r) => [⟨l⟩, ⟨r⟩]

/-- ASCII lowercasing (Go `strings.ToLower`, restricted to the ASCII
range the scheme comparison needs). -/
def toLowerStr (s : String) : String := ⟨s.data.map Char.toLower⟩

/-- An ASCII whitespace character (Go `strings.TrimSpace` cutset, at the
granularity the claims need). -/
def isSpaceChar (c : Char) : Bool :=
  c = ' ' || c = '\t' || c = '\n' || c = '\r'

/-- Go `strings.TrimSpace`: drop whitespace from both ends. -/
def trimStr (s : String) : String :=
  ⟨((s.data.dropWhile isSpaceChar).reverse.dropWhile isSpaceChar).reverse⟩

/-- `extractTokenFromHeader` from the extraction file: require a
non-empty header of the form `Bearer <token>` (scheme case-insensitive),
with a non-empty token after trimming. -/
def extractTokenFromHeader (r : Request) : Except ValidationError String :=
  if r.authorizationHeader = "" then
    .error ⟨.MISSING_TOKEN, "authorization header not found"⟩
  else
    let parts := splitN2Space r.authorizationHeader
    if parts.length ≠ 2 ∨ toLowerStr (parts.headD "") ≠ "bearer" then
      .error ⟨.MALFORMED, "invalid authorization header format, expected \x27Bearer <token>\x27"⟩
    else
      let token := trimStr (parts.getD 1 "")
      if token = "" then
        .error ⟨.MISSING_TOKEN, "token is empty"⟩
      else
        .ok token

/-- `extractTokenFromCookie`: look the cookie up by name; absent cookie
or empty trimmed value is a `MISSING_TOKEN` error. -/
def extractTokenFromCookie (r : Request) (cookieName : String) :
    Except ValidationError String :=
  match r.cookies.lookup cookieName with
  | none => .error ⟨.MISSING_TOKEN, "cookie not found"⟩
  | some value =>
      let token := trimStr value
      if token = "" then
        .error ⟨.MISSING_TOKEN, "cookie value is empty"⟩
      else
        .ok token

/-- `extractToken`: header first; cookie only as fallback when a cookie
name is configured; on double failure return the error from the header. -/
def extractToken (r : Request) (cfg : Config) : Except ValidationError String :=
  match extractTokenFromHeader r with
  | .ok token => .ok token
  | .error e =>
      if cfg.CookieName ≠ "" then
        match extractTokenFromCookie r cfg.CookieName with
        | .ok token => .ok token
        | .error _ => .error e
      else
        .error e

/-- An `error` value as the middleware sees it: a `*ValidationError` or
some other error. -/
inductive GoError where
  | validation (e : ValidationError)
  | other (msg : String)
deriving DecidableEq, Repr

/-- `getErrorCode` from the middleware file. -/
def getErrorCode : GoError → String
  | .validation e => e.code.toCodeString
  | .other _ => "UNKNOWN"

/-- The JSON body built by `buildErrorResponse` (a `gin.H` with keys
`error`, `reason` and optionally `message`). -/
structure ErrorResponse where
  error : String
  reason : String
  message : Option String
deriving DecidableEq, Repr

/-- `buildErrorResponse` from the middleware file: always
`error=unauthorized` and `reason=<code>`; a `message` field only for
`UNSUPPORTED_ALGORITHM` and `MALFORMED_ALGORITHM_HEADER`, and only when
the message is non-empty. -/
def buildErrorResponse (err : GoError) : ErrorResponse :=
  { error := "unauthorized"
    reason := getErrorCode err
    message :=
      match err with
      | .validation e =>
          if e.code = .UNSUPPORTED_ALGORITHM ∨ e.code = .MALFORMED_ALGORITHM_HEADER then
            if e.message ≠ "" then some e.message else none
          else none
      | .other _ => none }

/-- `redactToken` from the logger file: empty stays empty, eight or fewer
characters become the constant `"***"`, longer tokens keep only their
first eight characters plus `"..."`. -/
def redactToken (token : String) : String :=
  if token.length = 0 then ""
  else if token.length ≤ 8 then "***"
  else (token.take 8) ++ "..."

/-- The `token` attribute `SecurityEvent.LogValue` emits for an event
whose `TokenPreview` field holds the raw token: the only place a token
reaches the log record, and it passes through `redactToken`.  `LogValue`
receives no key material at all — its inputs are the string
fields. -/
def logValueTokenAttr (tokenPreview : String) : String :=
  redactToken tokenPreview

/-! ### Sample values used by witnesses -/

/-- A 32-byte sample HMAC secret. -/
def sampleSecret : List Nat := List.replicate 32 7

/-- The registry `NewConfig (WithHS256 sampleSecret)` builds. -/
def sampleCfg : Config :=
  { validators := [("HS256",
      ⟨some (.hmacSecret sampleSecret), some SigningMethodHS256⟩)]
    clockSkewLeeway := 60
    cookieName := ""
    requiredClaims := []
    contextKeyPrefix := "jwtauth" }

theorem sampleCfg_built : NewConfig [.withHS256 sampleSecret] = .ok sampleCfg := by
  rfl

/-! ### Claim theorems -/

/-- C1: for every registry and every token whose decoded header `alg` is
exactly `"none"`, `"None"` or `"NONE"`, `parseAndValidateJWT` fails with
a `ValidationError` of code `NONE_ALGORITHM`, regardless of payload and
signature. -/
theorem parseAndValidateJWT_none_rejected (token : RawToken) (cfg : Config)
    (now : Int) (a : String) (h1 : token.headerAlg = .algStr a)
    (h2 : a = "none" ∨ a = "None" ∨ a = "NONE") :
    parseAndValidateJWT token cfg now =
      .error ⟨.NONE_ALGORITHM, "none algorithm not allowed"⟩ := by
  unfold parseAndValidateJWT libParse validateAlgorithm
  rw [h1]
  simp [h2]

/-- Witness for C1: a concrete `"None"`-algorithm token against the
sample registry. -/
theorem parseAndValidateJWT_none_rejected_witness :
    parseAndValidateJWT ⟨.algStr "None", "none", [], fun _ => true⟩ sampleCfg 0 =
      .error ⟨.NONE_ALGORITHM, "none algorithm not allowed"⟩ :=
  parseAndValidateJWT_none_rejected _ sampleCfg 0 "None" rfl (Or.inr (Or.inl rfl))

/-- Inversion of `NewConfig` for a single `WithHS256` option: the only
successful outcome is the single-entry HS256 registry with the default
scalars. -/
lemma newConfig_hs256_inv (secret : List Nat) (cfg : Config)
    (hcfg : NewConfig [.withHS256 secret] = .ok cfg) :
    cfg = { defaultConfig with validators :=
      [("HS256", ⟨some (.hmacSecret secret), some SigningMethodHS256⟩)] } := by
  by_cases hlen : secret.length < 32
  · simp [NewConfig, applyOptions, applyOption, hlen] at hcfg
  · simp [NewConfig, applyOptions, applyOption, hlen, insertValidator,
      defaultConfig, findBadValidator] at hcfg
    exact hcfg.symm

/-- C5: a token whose header declares `alg = "hs256"` (lowercase),
against a registry configured only for `"HS256"`, fails with
`UNSUPPORTED_ALGORITHM` — the lookup is case-sensitive — and with no
other code and never success. -/
theorem parseAndValidateJWT_lowercase_hs256_unsupported (secret : List Nat)
    (token : RawToken) (cfg : Config) (now : Int)
    (hcfg : NewConfig [.withHS256 secret] = .ok cfg)
    (h1 : token.headerAlg = .algStr "hs256") :
    parseAndValidateJWT token cfg now =
      .error ⟨.UNSUPPORTED_ALGORITHM,
        "algorithm hs256 not supported (available: HS256)"⟩ := by
  have hc := newConfig_hs256_inv secret cfg hcfg
  subst hc
  unfold parseAndValidateJWT libParse validateAlgorithm
  rw [h1]
  simp [Config.getValidator, Config.AvailableAlgorithms, defaultConfig,
    List.lookup, joinStrings, List.insertionSort, List.orderedInsert]

/-- Witness for C5: a concrete lowercase `hs256` token against the
sample HS256-only registry. -/
theorem parseAndValidateJWT_lowercase_hs256_unsupported_witness :
    parseAndValidateJWT ⟨.algStr "hs256", "HS256", [], fun _ => true⟩ sampleCfg 0 =
      .error ⟨.UNSUPPORTED_ALGORITHM,
        "algorithm hs256 not supported (available: HS256)"⟩ :=
  parseAndValidateJWT_lowercase_hs256_unsupported sampleSecret _ sampleCfg 0
    sampleCfg_built rfl

/-- C2: if the registry lookup for the declared algorithm succeeds with
an entry whose declared signing method is `m`, then (a) a token whose
library-resolved signing method differs from `m` is rejected by
`validateAlgorithm` with `INVALID_SIGNATURE` (the algorithm-confusion
guard) and the whole validation fails with that same error, and (b) even
with matching methods, a token whose signature does not verify under the
entry key — i.e. not produced with that key — fails with
`INVALID_SIGNATURE`; either way such a token never validates.  The
hypothesis that the name is not a `none` spelling holds for every
registry `NewConfig` builds. -/
theorem validateAlgorithm_method_mismatch_invalid_signature (token : RawToken)
    (cfg : Config) (now : Int) (a : String) (v : algorithmValidator)
    (m : SigningMethod)
    (h1 : token.headerAlg = .algStr a)
    (hnone : ¬(a = "none" ∨ a = "None" ∨ a = "NONE"))
    (h2 : cfg.getValidator a = some v)
    (h3 : v.signingMethod = some m) :
    (token.methodAlg ≠ m.alg →
      validateAlgorithm token cfg =
        .error ⟨.INVALID_SIGNATURE,
          "algorithm confusion detected: token method " ++ token.methodAlg
            ++ " does not match expected method " ++ m.alg⟩ ∧
      parseAndValidateJWT token cfg now =
        .error ⟨.INVALID_SIGNATURE,
          "algorithm confusion detected: token method " ++ token.methodAlg
            ++ " does not match expected method " ++ m.alg⟩) ∧
    (token.methodAlg = m.alg → token.sigOK v.signingKey = false →
      parseAndValidateJWT token cfg now =
        .error ⟨.INVALID_SIGNATURE, "invalid signature"⟩) := by
  constructor
  · intro h4
    have hva : validateAlgorithm token cfg =
        .error ⟨.INVALID_SIGNATURE,
          "algorithm confusion detected: token method " ++ token.methodAlg
            ++ " does not match expected method " ++ m.alg⟩ := by
      unfold validateAlgorithm
      rw [h1]
      simp [hnone, h2, h3, methodAlgName, h4]
    refine ⟨hva, ?_⟩
    unfold parseAndValidateJWT libParse
    rw [hva]
  · intro hmeq hsig
    have hva : validateAlgorithm token cfg = .ok v.signingKey := by
      unfold validateAlgorithm
      rw [h1]
      simp [hnone, h2, h3, methodAlgName, hmeq]
    unfold parseAndValidateJWT libParse
    rw [hva]
    dsimp only
    simp [hsig]

/-- Witness for C2: a token declaring `HS256` (the configured entry) but
resolved by the library to the `RS256` signing method, against the sample
HS256-only registry. -/
theorem validateAlgorithm_method_mismatch_invalid_signature_witness :
    ((RawToken.mk (.algStr "HS256") "RS256" [] (fun _ => false)).methodAlg
        ≠ SigningMethodHS256.alg →
      validateAlgorithm ⟨.algStr "HS256", "RS256", [], fun _ => false⟩ sampleCfg =
        .error ⟨.INVALID_SIGNATURE,
          "algorithm confusion detected: token method "
            ++ (RawToken.mk (.algStr "HS256") "RS256" [] (fun _ => false)).methodAlg
            ++ " does not match expected method " ++ SigningMethodHS256.alg⟩ ∧
      parseAndValidateJWT ⟨.algStr "HS256", "RS256", [], fun _ => false⟩ sampleCfg 0 =
        .error ⟨.INVALID_SIGNATURE,
          "algorithm confusion detected: token method "
            ++ (RawToken.mk (.algStr "HS256") "RS256" [] (fun _ => false)).methodAlg
            ++ " does not match expected method " ++ SigningMethodHS256.alg⟩) ∧
    ((RawToken.mk (.algStr "HS256") "RS256" [] (fun _ => false)).methodAlg
        = SigningMethodHS256.alg →
      (RawToken.mk (.algStr "HS256") "RS256" [] (fun _ => false)).sigOK
          (algorithmValidator.mk (some (.hmacSecret sampleSecret))
            (some SigningMethodHS256)).signingKey = false →
      parseAndValidateJWT ⟨.algStr "HS256", "RS256", [], fun _ => false⟩ sampleCfg 0 =
        .error ⟨.INVALID_SIGNATURE, "invalid signature"⟩) :=
  validateAlgorithm_method_mismatch_invalid_signature
    ⟨.algStr "HS256", "RS256", [], fun _ => false⟩ sampleCfg 0 "HS256"
    ⟨some (.hmacSecret sampleSecret), some SigningMethodHS256⟩ SigningMethodHS256
    rfl (by simp) rfl rfl

/-- When routing succeeds (declared algorithm configured, methods agree)
and the signature verifies, `parseAndValidateJWT` reduces to the claims
checks. -/
lemma parseAndValidateJWT_routed (token : RawToken) (cfg : Config) (now : Int)
    (a : String) (v : algorithmValidator)
    (h1 : token.headerAlg = .algStr a)
    (hnone : ¬(a = "none" ∨ a = "None" ∨ a = "NONE"))
    (h2 : cfg.getValidator a = some v)
    (h3 : token.methodAlg = methodAlgName v.signingMethod)
    (h4 : token.sigOK v.signingKey = true) :
    parseAndValidateJWT token cfg now =
      match validateClaims (mapJWTClaimsToClaims token.payload) cfg now with
      | .error e => .error e
      | .ok _ =>
          match validateRequiredClaims token.payload cfg with
          | .error e => .error e
          | .ok _ => .ok (mapJWTClaimsToClaims token.payload) := by
  unfold parseAndValidateJWT libParse validateAlgorithm
  rw [h1]
  simp [hnone, h2, h3, h4]

lemma mapClaims_expiresAt (p : List (String × JSONValue)) :
    (mapJWTClaimsToClaims p).expiresAt = lookupNum p "exp" := rfl

lemma mapClaims_notBefore (p : List (String × JSONValue)) :
    (mapJWTClaimsToClaims p).notBefore = lookupNum p "nbf" := rfl

/-- C4: for a token routed and signature-verified under its declared
configured algorithm, with no not-before claim and passing required
claims, the expiry check rejects — with code `EXPIRED` — exactly when
`now > expiry + skew`; in particular `expiry = now - skew` still
validates and `expiry = now - skew - 1` fails as `EXPIRED`. -/
theorem parseAndValidateJWT_expiry_boundary (token : RawToken) (cfg : Config)
    (now : Int) (a : String) (v : algorithmValidator) (exp : Int)
    (h1 : token.headerAlg = .algStr a)
    (hnone : ¬(a = "none" ∨ a = "None" ∨ a = "NONE"))
    (h2 : cfg.getValidator a = some v)
    (h3 : token.methodAlg = methodAlgName v.signingMethod)
    (h4 : token.sigOK v.signingKey = true)
    (hexp : lookupNum token.payload "exp" = some exp)
    (hnbf : lookupNum token.payload "nbf" = none)
    (hreq : validateRequiredClaims token.payload cfg = .ok ()) :
    ((∃ e, parseAndValidateJWT token cfg now = .error e ∧ e.code = .EXPIRED) ↔
        now > exp + cfg.ClockSkewLeeway) ∧
    (exp = now - cfg.ClockSkewLeeway →
        parseAndValidateJWT token cfg now = .ok (mapJWTClaimsToClaims token.payload)) ∧
    (exp = now - cfg.ClockSkewLeeway - 1 →
        parseAndValidateJWT token cfg now =
          .error ⟨.EXPIRED, "token expired at " ++ toString exp⟩) := by
  have key : parseAndValidateJWT token cfg now =
      if now > exp + cfg.ClockSkewLeeway then
        .error ⟨.EXPIRED, "token expired at " ++ toString exp⟩
      else .ok (mapJWTClaimsToClaims token.payload) := by
    rw [parseAndValidateJWT_routed token cfg now a v h1 hnone h2 h3 h4]
    unfold validateClaims
    rw [mapClaims_expiresAt, mapClaims_notBefore, hexp, hnbf]
    by_cases hgt : now > exp + cfg.ClockSkewLeeway
    · simp [hgt]
    · simp [hgt, hreq]
  refine ⟨?_, ?_, ?_⟩
  · constructor
    · rintro ⟨e, he, hc⟩
      by_contra hgt
      rw [key, if_neg hgt] at he
      simp at he
    · intro hgt
      exact ⟨_, by rw [key, if_pos hgt], rfl⟩
  · intro hE
    rw [key, if_neg (by omega)]
  · intro hE
    rw [key, if_pos (by omega)]

/-- Witness for C4: concrete token with `exp = now - skew` (boundary)
against the sample registry (skew 60, `now = 1000`, `exp = 940`). -/
theorem parseAndValidateJWT_expiry_boundary_witness :
    ((∃ e, parseAndValidateJWT
          ⟨.algStr "HS256", "HS256", [("exp", .num 940)], fun _ => true⟩
          sampleCfg 1000 = .error e ∧ e.code = .EXPIRED) ↔
        (1000 : Int) > 940 + sampleCfg.ClockSkewLeeway) ∧
    ((940 : Int) = 1000 - sampleCfg.ClockSkewLeeway →
        parseAndValidateJWT
          ⟨.algStr "HS256", "HS256", [("exp", .num 940)], fun _ => true⟩
          sampleCfg 1000 =
          .ok (mapJWTClaimsToClaims [("exp", .num 940)])) ∧
    ((940 : Int) = 1000 - sampleCfg.ClockSkewLeeway - 1 →
        parseAndValidateJWT
          ⟨.algStr "HS256", "HS256", [("exp", .num 940)], fun _ => true⟩
          sampleCfg 1000 =
          .error ⟨.EXPIRED, "token expired at " ++ toString (940 : Int)⟩) :=
  parseAndValidateJWT_expiry_boundary
    ⟨.algStr "HS256", "HS256", [("exp", .num 940)], fun _ => true⟩
    sampleCfg 1000 "HS256"
    ⟨some (.hmacSecret sampleSecret), some SigningMethodHS256⟩ 940
    rfl (by simp) rfl rfl rfl rfl rfl rfl

/-- C7: a token that reaches the claims checks and carries a not-before
timestamp with `now < notBefore - skew` fails with the same `EXPIRED`
code used for expiry violations, for every registry and payload. -/
theorem parseAndValidateJWT_notBefore_reports_expired (token : RawToken)
    (cfg : Config) (now : Int) (a : String) (v : algorithmValidator) (nbf : Int)
    (h1 : token.headerAlg = .algStr a)
    (hnone : ¬(a = "none" ∨ a = "None" ∨ a = "NONE"))
    (h2 : cfg.getValidator a = some v)
    (h3 : token.methodAlg = methodAlgName v.signingMethod)
    (h4 : token.sigOK v.signingKey = true)
    (hnbf : lookupNum token.payload "nbf" = some nbf)
    (hlt : now < nbf - cfg.ClockSkewLeeway) :
    ∃ e, parseAndValidateJWT token cfg now = .error e ∧ e.code = .EXPIRED := by
  rw [parseAndValidateJWT_routed token cfg now a v h1 hnone h2 h3 h4]
  unfold validateClaims
  rw [mapClaims_expiresAt, mapClaims_notBefore, hnbf]
  cases hexp : lookupNum token.payload "exp" with
  | none =>
      refine ⟨⟨.EXPIRED, "token not valid until " ++ toString nbf⟩, ?_, rfl⟩
      simp [hlt]
  | some exp =>
      by_cases hgt : now > exp + cfg.ClockSkewLeeway
      · refine ⟨⟨.EXPIRED, "token expired at " ++ toString exp⟩, ?_, rfl⟩
        simp [hgt]
      · refine ⟨⟨.EXPIRED, "token not valid until " ++ toString nbf⟩, ?_, rfl⟩
        simp [hgt, hlt]

/-- Witness for C7: concrete token with `nbf = now + skew + 1` against
the sample registry (skew 60, `now = 1000`, `nbf = 1061`). -/
theorem parseAndValidateJWT_notBefore_reports_expired_witness :
    ∃ e, parseAndValidateJWT
        ⟨.algStr "HS256", "HS256", [("nbf", .num 1061)], fun _ => true⟩
        sampleCfg 1000 = .error e ∧ e.code = .EXPIRED :=
  parseAndValidateJWT_notBefore_reports_expired
    ⟨.algStr "HS256", "HS256", [("nbf", .num 1061)], fun _ => true⟩
    sampleCfg 1000 "HS256"
    ⟨some (.hmacSecret sampleSecret), some SigningMethodHS256⟩ 1061
    rfl (by simp) rfl rfl rfl rfl (by decide)

/-- Entry property maintained by the options: any HMAC secret stored in
the map is at least 32 bytes. -/
def entryOK (p : String × algorithmValidator) : Prop :=
  ∀ s, p.2.signingKey = some (.hmacSecret s) → 32 ≤ s.length

lemma insertValidator_forall {P : String × algorithmValidator → Prop}
    (m : List (String × algorithmValidator)) (k : String) (v : algorithmValidator)
    (hm : ∀ p ∈ m, P p) (hv : P (k, v)) :
    ∀ p ∈ insertValidator m k v, P p := by
  induction m with
  | nil => simpa [insertValidator] using hv
  | cons hd tl ih =>
      obtain ⟨k', v'⟩ := hd
      unfold insertValidator
      by_cases hk : k' = k
      · simp only [hk, if_pos rfl]
        intro p hp
        rcases List.mem_cons.mp hp with rfl | hp
        · exact hv
        · exact hm p (List.mem_cons_of_mem _ hp)
      · simp only [if_neg hk]
        intro p hp
        rcases List.mem_cons.mp hp with rfl | hp
        · exact hm (k', v') (List.mem_cons_self _ _)
        · exact ih (fun q hq => hm q (List.mem_cons_of_mem _ hq)) p hp

lemma applyOption_invariant (c c' : Config) (opt : ConfigOption)
    (h : applyOption c opt = .ok c')
    (hI : ∀ p ∈ c.validators, entryOK p) (hskew : 0 ≤ c.clockSkewLeeway) :
    (∀ p ∈ c'.validators, entryOK p) ∧ 0 ≤ c'.clockSkewLeeway := by
  cases opt with
  | withHS256 secret =>
      by_cases hlen : secret.length < 32
      · simp [applyOption, hlen] at h
      · simp only [applyOption, if_neg hlen, Except.ok.injEq] at h
        subst h
        refine ⟨insertValidator_forall _ _ _ hI ?_, hskew⟩
        intro s hs
        simp only [Option.some.injEq, SigningKey.hmacSecret.injEq] at hs
        subst hs
        omega
  | withRS256 publicKey =>
      cases publicKey with
      | none => simp [applyOption] at h
      | some k =>
          simp only [applyOption, Except.ok.injEq] at h
          subst h
          refine ⟨insertValidator_forall _ _ _ hI ?_, hskew⟩
          intro s hs
          simp at hs
  | withClockSkew skew =>
      by_cases hneg : skew < 0
      · simp [applyOption, hneg] at h
      · simp only [applyOption, if_neg hneg, Except.ok.injEq] at h
        subst h
        refine ⟨hI, ?_⟩
        show (0 : Int) ≤ skew
        omega
  | withCookie name =>
      simp only [applyOption, Except.ok.injEq] at h
      subst h
      exact ⟨hI, hskew⟩
  | withLogger =>
      simp only [applyOption, Except.ok.injEq] at h
      subst h
      exact ⟨hI, hskew⟩
  | withRequiredClaims claims =>
      simp only [applyOption, Except.ok.injEq] at h
      subst h
      exact ⟨hI, hskew⟩

lemma applyOptions_invariant (opts : List ConfigOption) :
    ∀ c c', applyOptions c opts = .ok c' →
    (∀ p ∈ c.validators, entryOK p) → 0 ≤ c.clockSkewLeeway →
    (∀ p ∈ c'.validators, entryOK p) ∧ 0 ≤ c'.clockSkewLeeway := by
  induction opts with
  | nil =>
      intro c c' h hI hskew
      simp only [applyOptions, Except.ok.injEq] at h
      subst h
      exact ⟨hI, hskew⟩
  | cons opt rest ih =>
      intro c c' h hI hskew
      unfold applyOptions at h
      cases hopt : applyOption c opt with
      | error e => rw [hopt] at h; cases h
      | ok c₁ =>
          rw [hopt] at h
          obtain ⟨hI₁, hskew₁⟩ := applyOption_invariant c c₁ opt hopt hI hskew
          exact ih c₁ c' h hI₁ hskew₁

lemma applyOption_skew_preserved (c c' : Config) (opt : ConfigOption)
    (h : applyOption c opt = .ok c') (hopt : ∀ sk, opt ≠ .withClockSkew sk) :
    c'.clockSkewLeeway = c.clockSkewLeeway := by
  cases opt with
  | withHS256 secret =>
      by_cases hlen : secret.length < 32
      · simp [applyOption, hlen] at h
      · simp only [applyOption, if_neg hlen, Except.ok.injEq] at h
        subst h; rfl
  | withRS256 publicKey =>
      cases publicKey with
      | none => simp [applyOption] at h
      | some k =>
          simp only [applyOption, Except.ok.injEq] at h
          subst h; rfl
  | withClockSkew skew => exact absurd rfl (hopt skew)
  | withCookie name =>
      simp only [applyOption, Except.ok.injEq] at h
      subst h; rfl
  | withLogger =>
      simp only [applyOption, Except.ok.injEq] at h
      subst h; rfl
  | withRequiredClaims claims =>
      simp only [applyOption, Except.ok.injEq] at h
      subst h; rfl

lemma applyOptions_skew_default (opts : List ConfigOption) :
    ∀ c c', applyOptions c opts = .ok c' →
    (∀ sk, ConfigOption.withClockSkew sk ∉ opts) →
    c'.clockSkewLeeway = c.clockSkewLeeway := by
  induction opts with
  | nil =>
      intro c c' h _
      simp only [applyOptions, Except.ok.injEq] at h
      subst h; rfl
  | cons opt rest ih =>
      intro c c' h hno
      unfold applyOptions at h
      cases hopt : applyOption c opt with
      | error e => rw [hopt] at h; cases h
      | ok c₁ =>
          rw [hopt] at h
          have h₁ : c₁.clockSkewLeeway = c.clockSkewLeeway :=
            applyOption_skew_preserved c c₁ opt hopt
              (fun sk hsk => hno sk (hsk ▸ List.mem_cons_self _ _))
          have h₂ : c'.clockSkewLeeway = c₁.clockSkewLeeway :=
            ih c₁ c' h (fun sk hsk => hno sk (List.mem_cons_of_mem _ hsk))
          rw [h₂, h₁]

lemma findBadValidator_none (l : List (String × algorithmValidator))
    (h : findBadValidator l = none) :
    ∀ p ∈ l, p.2.signingKey ≠ none ∧ p.2.signingMethod ≠ none := by
  induction l with
  | nil => simp
  | cons hd tl ih =>
      obtain ⟨alg, v⟩ := hd
      unfold findBadValidator at h
      by_cases h1 : v.signingKey = none
      · simp [h1] at h
      · by_cases h2 : v.signingMethod = none
        · simp [h1, h2] at h
        · simp only [if_neg h1, if_neg h2] at h
          intro p hp
          rcases List.mem_cons.mp hp with rfl | hp
          · exact ⟨h1, h2⟩
          · exact ih h p hp

lemma findBadValidator_some_code (l : List (String × algorithmValidator))
    (e : ValidationError) (h : findBadValidator l = some e) :
    e.code = .CONFIG_ERROR := by
  induction l with
  | nil => simp [findBadValidator] at h
  | cons hd tl ih =>
      obtain ⟨alg, v⟩ := hd
      unfold findBadValidator at h
      by_cases h1 : v.signingKey = none
      · simp only [if_pos h1, Option.some.injEq] at h
        rw [← h]
      · by_cases h2 : v.signingMethod = none
        · simp only [if_neg h1, if_pos h2, Option.some.injEq] at h
          rw [← h]
        · simp only [if_neg h1, if_neg h2] at h
          exact ih h

/-- Shared invariant package for every registry `NewConfig` returns. -/
lemma newConfig_ok_invariants (opts : List ConfigOption) (cfg : Config)
    (h : NewConfig opts = .ok cfg) :
    cfg.validators ≠ [] ∧
    (∀ p ∈ cfg.validators,
      p.1 ≠ "none" ∧ p.1 ≠ "None" ∧ p.1 ≠ "NONE" ∧
      p.2.signingKey ≠ none ∧ p.2.signingMethod ≠ none ∧
      ∀ s, p.2.signingKey = some (.hmacSecret s) → 32 ≤ s.length) ∧
    0 ≤ cfg.clockSkewLeeway ∧
    ((∀ sk, ConfigOption.withClockSkew sk ∉ opts) → cfg.clockSkewLeeway = 60) := by
  unfold NewConfig at h
  cases happ : applyOptions defaultConfig opts with
  | error e => rw [happ] at h; simp at h
  | ok c =>
      rw [happ] at h
      dsimp only at h
      by_cases hempty : c.validators.isEmpty = true
      · rw [if_pos hempty] at h; simp at h
      · rw [if_neg hempty] at h
        by_cases hany : (c.validators.any
            (fun p => p.1 = "none" || p.1 = "None" || p.1 = "NONE")) = true
        · rw [if_pos hany] at h; simp at h
        · rw [if_neg hany] at h
          cases hbad : findBadValidator c.validators with
          | some e => rw [hbad] at h; simp at h
          | none =>
              rw [hbad] at h
              injection h with h
              subst h
              obtain ⟨hent, hskew⟩ := applyOptions_invariant opts defaultConfig c
                happ (by simp [defaultConfig]) (by simp [defaultConfig])
              refine ⟨?_, ?_, hskew, ?_⟩
              · intro hnil
                rw [hnil] at hempty
                exact hempty rfl
              · intro p hp
                have hkeys : ¬(p.1 = "none" ∨ p.1 = "None" ∨ p.1 = "NONE") := by
                  intro hk
                  exact hany (List.any_eq_true.mpr ⟨p, hp, by
                    rcases hk with hk | hk | hk <;> simp [hk]⟩)
                push_neg at hkeys
                obtain ⟨hkey, hmeth⟩ := findBadValidator_none c.validators hbad p hp
                exact ⟨hkeys.1, hkeys.2.1, hkeys.2.2, hkey, hmeth, hent p hp⟩
              · intro hno
                have := applyOptions_skew_default opts defaultConfig c happ hno
                simpa [defaultConfig] using this

/-- C3: `NewConfig` either fails with a `CONFIG_ERROR` or returns a
registry satisfying all construction invariants (non-empty, no `none`
spelling among its keys, non-nil key and method in every entry, HMAC
secrets at least 32 bytes, clock skew nonnegative with default 60); in
particular zero algorithms or a short HMAC secret never yield a usable
registry. -/
theorem NewConfig_fail_fast_invariants :
    (∀ opts, (∃ e, NewConfig opts = .error e ∧ e.code = .CONFIG_ERROR) ∨
      (∃ cfg, NewConfig opts = .ok cfg ∧
        cfg.validators ≠ [] ∧
        (∀ p ∈ cfg.validators,
          p.1 ≠ "none" ∧ p.1 ≠ "None" ∧ p.1 ≠ "NONE" ∧
          p.2.signingKey ≠ none ∧ p.2.signingMethod ≠ none ∧
          ∀ s, p.2.signingKey = some (.hmacSecret s) → 32 ≤ s.length) ∧
        0 ≤ cfg.clockSkewLeeway ∧
        ((∀ sk, ConfigOption.withClockSkew sk ∉ opts) → cfg.clockSkewLeeway = 60))) ∧
    (∃ e, NewConfig [] = .error e ∧ e.code = .CONFIG_ERROR) ∧
    (∀ secret : List Nat, secret.length < 32 →
      ∃ e, NewConfig [.withHS256 secret] = .error e ∧ e.code = .CONFIG_ERROR) := by
  have herr : ∀ opts e, NewConfig opts = .error e → e.code = .CONFIG_ERROR := by
    intro opts e h
    unfold NewConfig at h
    cases happ : applyOptions defaultConfig opts with
    | error m =>
        rw [happ] at h
        dsimp only at h
        injection h with h
        subst h
        rfl
    | ok c =>
        rw [happ] at h
        dsimp only at h
        by_cases hempty : c.validators.isEmpty = true
        · rw [if_pos hempty] at h
          injection h with h
          subst h
          rfl
        · rw [if_neg hempty] at h
          by_cases hany : (c.validators.any
              (fun p => p.1 = "none" || p.1 = "None" || p.1 = "NONE")) = true
          · rw [if_pos hany] at h
            injection h with h
            subst h
            rfl
          · rw [if_neg hany] at h
            cases hbad : findBadValidator c.validators with
            | some e2 =>
                rw [hbad] at h
                injection h with h
                subst h
                exact findBadValidator_some_code c.validators e2 hbad
            | none => rw [hbad] at h; simp at h
  refine ⟨?_, ?_, ?_⟩
  · intro opts
    cases h : NewConfig opts with
    | error e => exact Or.inl ⟨e, rfl, herr opts e h⟩
    | ok cfg => exact Or.inr ⟨cfg, rfl, newConfig_ok_invariants opts cfg h⟩
  · cases h : NewConfig ([] : List ConfigOption) with
    | error e => exact ⟨e, rfl, herr [] e h⟩
    | ok cfg =>
        exfalso
        have := (newConfig_ok_invariants [] cfg h).1
        revert h
        unfold NewConfig
        simp [applyOptions, defaultConfig]
  · intro secret hlen
    cases h : NewConfig [ConfigOption.withHS256 secret] with
    | error e => exact ⟨e, rfl, herr _ e h⟩
    | ok cfg =>
        exfalso
        revert h
        unfold NewConfig
        simp [applyOptions, applyOption, hlen]

/-- Witness for C3: the short-secret clause applied to the empty secret. -/
theorem NewConfig_fail_fast_invariants_witness :
    ∃ e, NewConfig [.withHS256 ([] : List Nat)] = .error e ∧
      e.code = .CONFIG_ERROR :=
  NewConfig_fail_fast_invariants.2.2 [] (by decide)

lemma joinStrings_foldl_extend (l : List String) (a : String) :
    ∃ q, List.foldl (fun acc x => acc ++ ", " ++ x) a l = a ++ q := by
  induction l generalizing a with
  | nil => exact ⟨"", by simp⟩
  | cons y ys ih =>
      obtain ⟨q, hq⟩ := ih (a ++ ", " ++ y)
      refine ⟨", " ++ y ++ q, ?_⟩
      rw [List.foldl_cons, hq]
      simp [String.append_assoc]

lemma joinStrings_foldl_mem_split (x : String) (l : List String) :
    ∀ a, x ∈ l →
      ∃ p q, List.foldl (fun acc s => acc ++ ", " ++ s) a l = p ++ x ++ q := by
  induction l with
  | nil => intro a hx; cases hx
  | cons y ys ih =>
      intro a hx
      rcases List.mem_cons.mp hx with rfl | hx
      · obtain ⟨q, hq⟩ := joinStrings_foldl_extend ys (a ++ ", " ++ x)
        exact ⟨a ++ ", ", q, by rw [List.foldl_cons, hq]⟩
      · exact ih (a ++ ", " ++ y) hx

/-- Every member of a string list occurs as a substring of its
comma-space join. -/
lemma joinStrings_mem_split (l : List String) (x : String) (hx : x ∈ l) :
    ∃ p q, joinStrings l = p ++ x ++ q := by
  cases l with
  | nil => cases hx
  | cons y ys =>
      rcases List.mem_cons.mp hx with rfl | hx
      · obtain ⟨q, hq⟩ := joinStrings_foldl_extend ys x
        refine ⟨"", q, ?_⟩
        unfold joinStrings
        dsimp only
        rw [hq]
        simp
      · obtain ⟨p, q, hpq⟩ := joinStrings_foldl_mem_split x ys y hx
        exact ⟨p, q, by unfold joinStrings; dsimp only; rw [hpq]⟩

/-- `AvailableAlgorithms` is sorted (`sort.Strings`). -/
lemma availableAlgorithms_sorted (c : Config) :
    c.AvailableAlgorithms.Sorted (· ≤ ·) :=
  List.sorted_insertionSort _ _

/-- `AvailableAlgorithms` lists exactly the configured algorithm names. -/
lemma availableAlgorithms_mem (c : Config) (x : String) :
    x ∈ c.AvailableAlgorithms ↔ ∃ v, (x, v) ∈ c.validators := by
  unfold Config.AvailableAlgorithms
  rw [(List.perm_insertionSort _ _).mem_iff, List.mem_map]
  constructor
  · rintro ⟨⟨k, v⟩, hmem, rfl⟩
    exact ⟨v, hmem⟩
  · rintro ⟨v, hv⟩
    exact ⟨(x, v), hv, rfl⟩

/-- C6 (amended): whenever `validateAlgorithm` fails with
`UNSUPPORTED_ALGORITHM`, the message is the fixed template around the
sorted, comma-joined list of exactly the configured algorithm names, and
every configured name occurs in the message; the only other algorithm
name in the message is the requested (unconfigured) one. -/
theorem validateAlgorithm_unsupported_message (token : RawToken) (cfg : Config)
    (e : ValidationError)
    (h : validateAlgorithm token cfg = .error e)
    (hc : e.code = .UNSUPPORTED_ALGORITHM) :
    ∃ a, token.headerAlg = .algStr a ∧
      cfg.getValidator a = none ∧
      e.message = "algorithm " ++ a ++ " not supported (available: "
        ++ joinStrings cfg.AvailableAlgorithms ++ ")" ∧
      cfg.AvailableAlgorithms.Sorted (· ≤ ·) ∧
      (∀ x, x ∈ cfg.AvailableAlgorithms ↔ ∃ v, (x, v) ∈ cfg.validators) ∧
      (∀ x ∈ cfg.AvailableAlgorithms, ∃ p q, e.message = p ++ x ++ q) := by
  unfold validateAlgorithm at h
  cases hh : token.headerAlg with
  | nonString =>
      rw [hh] at h
      injection h with h
      subst h
      simp at hc
  | absent =>
      rw [hh] at h
      injection h with h
      subst h
      simp at hc
  | algStr a =>
      rw [hh] at h
      dsimp only at h
      by_cases hns : a = "none" ∨ a = "None" ∨ a = "NONE"
      · rw [if_pos hns] at h
        injection h with h
        subst h
        simp at hc
      · rw [if_neg hns] at h
        cases hlook : cfg.getValidator a with
        | some v =>
            rw [hlook] at h
            dsimp only at h
            by_cases hm : token.methodAlg ≠ methodAlgName v.signingMethod
            · rw [if_pos hm] at h
              injection h with h
              subst h
              simp at hc
            · rw [if_neg hm] at h
              simp at h
        | none =>
            rw [hlook] at h
            injection h with h
            subst h
            refine ⟨a, rfl, hlook, rfl, availableAlgorithms_sorted cfg,
              fun x => availableAlgorithms_mem cfg x, ?_⟩
            intro x hx
            obtain ⟨p, q, hpq⟩ := joinStrings_mem_split _ x hx
            refine ⟨"algorithm " ++ a ++ " not supported (available: " ++ p,
              q ++ ")", ?_⟩
            dsimp only
            rw [hpq]
            simp [String.append_assoc]

/-- Witness for C6 (amended): applied to the `ES256` token against the
sample HS256-only registry. -/
theorem validateAlgorithm_unsupported_message_witness :
    ∃ a, (RawToken.mk (.algStr "ES256") "ES256" [] (fun _ => true)).headerAlg
          = .algStr a ∧
      sampleCfg.getValidator a = none ∧
      ((⟨.UNSUPPORTED_ALGORITHM,
          "algorithm ES256 not supported (available: HS256)"⟩ :
        ValidationError)).message =
        "algorithm " ++ a ++ " not supported (available: "
          ++ joinStrings sampleCfg.AvailableAlgorithms ++ ")" ∧
      sampleCfg.AvailableAlgorithms.Sorted (· ≤ ·) ∧
      (∀ x, x ∈ sampleCfg.AvailableAlgorithms ↔
        ∃ v, (x, v) ∈ sampleCfg.validators) ∧
      (∀ x ∈ sampleCfg.AvailableAlgorithms, ∃ p q,
        ((⟨.UNSUPPORTED_ALGORITHM,
            "algorithm ES256 not supported (available: HS256)"⟩ :
          ValidationError)).message = p ++ x ++ q) :=
  validateAlgorithm_unsupported_message
    ⟨.algStr "ES256", "ES256", [], fun _ => true⟩ sampleCfg
    ⟨.UNSUPPORTED_ALGORITHM, "algorithm ES256 not supported (available: HS256)"⟩
    rfl rfl

/-- Counterexample for C6 as stated: the `UNSUPPORTED_ALGORITHM` message
also contains the requested algorithm name (`ES256` here), which is not
configured — so the message does contain an algorithm name that is not
configured. -/
theorem validateAlgorithm_unsupported_message_counterexample :
    validateAlgorithm ⟨.algStr "ES256", "ES256", [], fun _ => true⟩ sampleCfg =
      .error ⟨.UNSUPPORTED_ALGORITHM,
        "algorithm ES256 not supported (available: HS256)"⟩ ∧
    ("algorithm ES256 not supported (available: HS256)" =
      "algorithm " ++ "ES256" ++ " not supported (available: HS256)") ∧
    "ES256" ∉ sampleCfg.AvailableAlgorithms := by
  refine ⟨rfl, by decide, by decide⟩

/-- C8: for every validation failure, the response body carries exactly
`error = "unauthorized"` and `reason = <the code>`, and a `message` field
is present if and only if the code is `UNSUPPORTED_ALGORITHM` or
`MALFORMED_ALGORITHM_HEADER` and the message is non-empty; when present,
the field is exactly that message, so the message of every other code
never appears in the response. -/
theorem buildErrorResponse_shape (e : ValidationError) :
    (buildErrorResponse (.validation e)).error = "unauthorized" ∧
    (buildErrorResponse (.validation e)).reason = e.code.toCodeString ∧
    ((buildErrorResponse (.validation e)).message ≠ none ↔
      ((e.code = .UNSUPPORTED_ALGORITHM ∨ e.code = .MALFORMED_ALGORITHM_HEADER) ∧
        e.message ≠ "")) ∧
    (∀ m, (buildErrorResponse (.validation e)).message = some m →
      m = e.message ∧
      (e.code = .UNSUPPORTED_ALGORITHM ∨ e.code = .MALFORMED_ALGORITHM_HEADER)) := by
  refine ⟨rfl, rfl, ?_, ?_⟩
  · unfold buildErrorResponse
    dsimp only
    by_cases hcode : e.code = .UNSUPPORTED_ALGORITHM ∨ e.code = .MALFORMED_ALGORITHM_HEADER
    · rw [if_pos hcode]
      by_cases hmsg : e.message ≠ ""
      · rw [if_pos hmsg]
        simp [hcode, hmsg]
      · rw [if_neg hmsg]
        simp [hmsg]
    · rw [if_neg hcode]
      simp [hcode]
  · intro m hm
    unfold buildErrorResponse at hm
    dsimp only at hm
    by_cases hcode : e.code = .UNSUPPORTED_ALGORITHM ∨ e.code = .MALFORMED_ALGORITHM_HEADER
    · rw [if_pos hcode] at hm
      by_cases hmsg : e.message ≠ ""
      · rw [if_pos hmsg] at hm
        injection hm with hm
        exact ⟨hm.symm, hcode⟩
      · rw [if_neg hmsg] at hm
        cases hm
    · rw [if_neg hcode] at hm
      cases hm

/-- Witness for C8: the concrete `EXPIRED` failure — no message field in
the body. -/
theorem buildErrorResponse_shape_witness :
    (buildErrorResponse (.validation ⟨.EXPIRED, "token has expired"⟩)).error
        = "unauthorized" ∧
    (buildErrorResponse (.validation ⟨.EXPIRED, "token has expired"⟩)).reason
        = ErrorCode.EXPIRED.toCodeString ∧
    ((buildErrorResponse (.validation ⟨.EXPIRED, "token has expired"⟩)).message
        ≠ none ↔
      (((ErrorCode.EXPIRED = .UNSUPPORTED_ALGORITHM ∨
          ErrorCode.EXPIRED = .MALFORMED_ALGORITHM_HEADER)) ∧
        ("token has expired" : String) ≠ "")) ∧
    (∀ m, (buildErrorResponse
        (.validation ⟨.EXPIRED, "token has expired"⟩)).message = some m →
      m = "token has expired" ∧
      (ErrorCode.EXPIRED = .UNSUPPORTED_ALGORITHM ∨
        ErrorCode.EXPIRED = .MALFORMED_ALGORITHM_HEADER)) :=
  buildErrorResponse_shape ⟨.EXPIRED, "token has expired"⟩

/-- C9: the token attribute the security event emits is computed from
the raw token alone (no key material is in scope) and never reveals more
than the first eight characters: empty input gives the empty constant,
one to eight characters give the constant `"***"`, and longer tokens
give exactly their first eight characters plus `"..."`. -/
theorem redactToken_preview_safe (token : String) :
    (token.length = 0 → logValueTokenAttr token = "") ∧
    (1 ≤ token.length → token.length ≤ 8 → logValueTokenAttr token = "***") ∧
    (9 ≤ token.length → logValueTokenAttr token = token.take 8 ++ "...") ∧
    (logValueTokenAttr token = "" ∨ logValueTokenAttr token = "***" ∨
      logValueTokenAttr token = token.take 8 ++ "...") := by
  refine ⟨?_, ?_, ?_, ?_⟩ <;> unfold logValueTokenAttr redactToken
  · intro h
    rw [if_pos h]
  · intro h1 h8
    rw [if_neg (by omega), if_pos h8]
  · intro h9
    rw [if_neg (by omega), if_neg (by omega)]
  · by_cases h0 : token.length = 0
    · rw [if_pos h0]
      exact Or.inl rfl
    · by_cases h8 : token.length ≤ 8
      · rw [if_neg h0, if_pos h8]
        exact Or.inr (Or.inl rfl)
      · rw [if_neg h0, if_neg h8]
        exact Or.inr (Or.inr rfl)

/-- Witness for C9: a twelve-character token keeps exactly its first
eight characters. -/
theorem redactToken_preview_safe_witness :
    (("eyJhbGciOiJI" : String).length = 0 → logValueTokenAttr "eyJhbGciOiJI" = "") ∧
    (1 ≤ ("eyJhbGciOiJI" : String).length → ("eyJhbGciOiJI" : String).length ≤ 8 →
      logValueTokenAttr "eyJhbGciOiJI" = "***") ∧
    (9 ≤ ("eyJhbGciOiJI" : String).length →
      logValueTokenAttr "eyJhbGciOiJI" = ("eyJhbGciOiJI" : String).take 8 ++ "...") ∧
    (logValueTokenAttr "eyJhbGciOiJI" = "" ∨
      logValueTokenAttr "eyJhbGciOiJI" = "***" ∨
      logValueTokenAttr "eyJhbGciOiJI" = ("eyJhbGciOiJI" : String).take 8 ++ "...") :=
  redactToken_preview_safe "eyJhbGciOiJI"

/-- C10: token extraction prefers the `Authorization` header — a header
token is returned without consulting the cookie; with no cookie name
configured the result is exactly the header result; the cookie is used
only as a fallback after a header failure; and whenever extraction fails
the error returned is the header error. -/
theorem extractToken_header_preference (r : Request) (cfg : Config) :
    (∀ t, extractTokenFromHeader r = .ok t → extractToken r cfg = .ok t) ∧
    (cfg.CookieName = "" → extractToken r cfg = extractTokenFromHeader r) ∧
    (∀ e t, extractTokenFromHeader r = .error e → cfg.CookieName ≠ "" →
      extractTokenFromCookie r cfg.CookieName = .ok t →
      extractToken r cfg = .ok t) ∧
    (∀ e, extractToken r cfg = .error e → extractTokenFromHeader r = .error e) := by
  refine ⟨?_, ?_, ?_, ?_⟩
  · intro t ht
    unfold extractToken
    rw [ht]
  · intro hc
    unfold extractToken
    cases hh : extractTokenFromHeader r with
    | ok t => rfl
    | error e =>
        dsimp only
        rw [if_neg (by simp [hc])]
  · intro e t he hc hcook
    unfold extractToken
    rw [he]
    dsimp only
    rw [if_pos hc, hcook]
  · intro e he
    unfold extractToken at he
    cases hh : extractTokenFromHeader r with
    | ok t =>
        rw [hh] at he
        simp at he
    | error e2 =>
        rw [hh] at he
        dsimp only at he
        by_cases hc : cfg.CookieName ≠ ""
        · rw [if_pos hc] at he
          cases hcook : extractTokenFromCookie r cfg.CookieName with
          | ok t =>
              rw [hcook] at he
              simp at he
          | error e3 =>
              rw [hcook] at he
              dsimp only at he
              injection he with he
              subst he
              rfl
        · rw [if_neg hc] at he
          injection he with he
          subst he
          rfl

/-- Witness for C10: a request with a `Bearer` header token and an
unrelated cookie, against the sample registry (no cookie configured). -/
theorem extractToken_header_preference_witness :
    extractToken ⟨"Bearer abc", [("session", "zzz")]⟩ sampleCfg = .ok "abc" :=
  (extractToken_header_preference
    ⟨"Bearer abc", [("session", "zzz")]⟩ sampleCfg).1 "abc" rfl

end Jwtauth
